import Mathlib

/-!
Verification of the workflow-session bridge server (bridge_server.py).

Shallow embedding conventions:
* Timestamps (time.time(), _utcnow()) are modelled as integers.
* Workflow instances are identified by numeric ids (object identity).
* Python dicts that are used as maps are modelled as association lists
  that preserve insertion order, matching Python dict semantics.
* uuid4-generated identifiers are passed in as explicit parameters.
-/

namespace Bridge

/-- Serialized chat message (`_serialize_chat_message`): role value,
optional author name, text. -/
structure Msg where
  role : String
  author : Option String
  text : String
  deriving DecidableEq, Repr

/-- Python `a or b` on an optional string: `None` and `""` are falsy. -/
def pyOrStr : Option String → String → String
  | some a, b => if a = "" then b else a
  | none, b => b

/-- Python `str.strip()`: drop leading and trailing whitespace. -/
def pyStrip (s : String) : String :=
  ⟨((s.data.dropWhile Char.isWhitespace).reverse.dropWhile Char.isWhitespace).reverse⟩

/-- The loop body of `_to_openai_output_event`: collect a
`"<who>: <text>"` line for each message whose stripped text is non-empty,
with `who = m.author_name or m.role.value`. -/
def collectLines : List Msg → List String
  | [] => []
  | m :: ms =>
    if pyStrip m.text ≠ "" then
      (pyOrStr m.author m.role ++ ": " ++ m.text) :: collectLines ms
    else
      collectLines ms

/-- `_to_openai_output_event`: the delta text is the newline-joined lines,
or the literal placeholder when no line was collected. -/
def outputDeltaText (conversation : List Msg) : String :=
  let lines := collectLines conversation
  if lines = [] then "(no content)" else String.intercalate "\n" lines

/-- Payload extracted by `_to_openai_trace_request_info` from a
request-info event. -/
structure RequestInfoData where
  requestId : String
  sourceExecutorId : String
  prompt : String
  awaitingAgentId : String
  conversation : List Msg
  deriving DecidableEq, Repr

/-- Workflow-engine events consumed by `_stream_events`; `other` stands
for status events and any further event kind. -/
inductive WfEvent where
  | requestInfo (info : RequestInfoData)
  | output (conversation : List Msg)
  | failed (message : String)
  | other (tag : String)
  deriving DecidableEq, Repr

/-- Wire events produced by the translator. -/
inductive WireEvent where
  | trace (info : RequestInfoData)
  | delta (text : String)
  | error (message : String)
  deriving DecidableEq, Repr

/-- The per-event dispatch of `_stream_events`: request-info, output and
failure events produce one wire event each; every other event is ignored. -/
def toWireEvent : WfEvent → Option WireEvent
  | .requestInfo info => some (.trace info)
  | .output conv => some (.delta (outputDeltaText conv))
  | .failed msg => some (.error msg)
  | .other _ => none

/-- Items placed on the response queue by `send`: a wire event or the
terminal `[DONE]` sentinel. -/
inductive OutItem where
  | ev (w : WireEvent)
  | done
  deriving DecidableEq, Repr

/-- `_stream_events`: translate the source events in order, then send the
terminal sentinel. -/
def streamEvents : List WfEvent → List OutItem
  | [] => [OutItem.done]
  | e :: es =>
    match toWireEvent e with
    | some w => OutItem.ev w :: streamEvents es
    | none => streamEvents es

/-! ### Claim C6: the output-delta text -/

/-- The delta text exactly as claim C6 words it: a line for every message
with non-empty text, author name used whenever present, otherwise the role. -/
def claimOutputDeltaText (conversation : List Msg) : String :=
  let lines := conversation.filterMap fun m =>
    if m.text ≠ "" then
      some ((match m.author with | some a => a | none => m.role) ++ ": " ++ m.text)
    else none
  if lines = [] then "(no content)" else String.intercalate "\n" lines

/-- The delta text as amended: a line for every message whose text contains
a non-whitespace character, author name used when present and non-empty,
otherwise the role. -/
def amendedOutputDeltaText (conversation : List Msg) : String :=
  let lines := conversation.filterMap fun m =>
    if ∃ c ∈ m.text.data, ¬ c.isWhitespace then
      some (pyOrStr m.author m.role ++ ": " ++ m.text)
    else none
  if lines = [] then "(no content)" else String.intercalate "\n" lines

/-! ### Claim C3: `_prune_workflows` -/

/-- One entry of the WORKFLOWS dict: conversation key, workflow instance
id, last-access timestamp. The dict is modelled as the insertion-ordered
list of its entries. -/
structure RegEntry where
  key : String
  wf : Nat
  ts : Int
  deriving DecidableEq, Repr

/-- Comparison key of the eviction sort (`key=lambda x: x[1][1]`). -/
def tsLE (a b : RegEntry) : Prop := a.ts ≤ b.ts

instance : DecidableRel tsLE := fun a b => inferInstanceAs (Decidable (a.ts ≤ b.ts))

instance : IsTotal RegEntry tsLE := ⟨fun a b => Int.le_total a.ts b.ts⟩

instance : IsTrans RegEntry tsLE := ⟨fun _ _ _ h1 h2 => le_trans h1 h2⟩

/-- The survivors of the TTL phase: entries with `now - ts ≤ ttl`
(the code deletes exactly those with `now - ts > ttl`). -/
def freshList (ws : List RegEntry) (ttl now : Int) : List RegEntry :=
  ws.filter fun e => decide (now - e.ts ≤ ttl)

/-- The MAX_WORKFLOWS phase of `_prune_workflows`: when the bound is still
exceeded, sort the entries by timestamp (Python `sorted` is stable; so is
insertion sort) and delete the keys of the first `len - max` entries. -/
def enforceMax (fresh : List RegEntry) (m : Nat) : List RegEntry :=
  if fresh.length > m then
    let sorted := fresh.insertionSort tsLE
    let evictKeys := (sorted.take (fresh.length - m)).map RegEntry.key
    fresh.filter fun e => decide (¬ e.key ∈ evictKeys)
  else fresh

/-- `_prune_workflows`: delete the expired entries, then enforce the
maximum when one is configured. -/
def pruneWorkflows (ws : List RegEntry) (ttl : Int) (maxW : Option Nat) (now : Int) :
    List RegEntry :=
  let fresh := freshList ws ttl now
  match maxW with
  | none => fresh
  | some m => enforceMax fresh m

/-- The registry of the TTL=5 / MAX=2 pruning scenario. -/
def scenarioRegistry : List RegEntry :=
  [⟨"stale", 0, 0⟩, ⟨"keep_a", 1, 7⟩, ⟨"keep_b", 2, 8⟩, ⟨"keep_c", 3, 6⟩]
/-! ### The run/audit store (`_ensure_workflow_row`, `_ensure_run_row`,
`_update_run_status`, `_audit`) -/

/-- Python/JSON scalar values: conversation identifiers and payload fields. -/
inductive Scalar where
  | str (s : String)
  | num (n : Int)
  | boolean (b : Bool)
  | null
  deriving DecidableEq, Repr

/-- Python truthiness of a scalar. -/
def Scalar.truthy : Scalar → Bool
  | .str s => decide (s ≠ "")
  | .num n => decide (n ≠ 0)
  | .boolean b => b
  | .null => false

/-- A request's `conversation` field: a JSON value. -/
inductive PyVal where
  | scalar (v : Scalar)
  | obj (kvs : List (String × Scalar))
  | arr (vs : List Scalar)
  deriving DecidableEq, Repr

/-- Python dict lookup (`dict.get`) over an insertion-ordered assoc list. -/
def alistGet {κ α : Type} [DecidableEq κ] (k : κ) : List (κ × α) → Option α
  | [] => none
  | (k2, v) :: rest => if k = k2 then some v else alistGet k rest

/-- Python dict assignment `d[k] = v`: replace in place, append if new. -/
def alistSet {κ α : Type} [DecidableEq κ] (k : κ) (v : α) :
    List (κ × α) → List (κ × α)
  | [] => [(k, v)]
  | (k2, v2) :: rest =>
    if k = k2 then (k, v) :: rest else (k2, v2) :: alistSet k v rest

/-- `_get_conversation_id`: a string is returned as-is, a dict yields its
`"id"` value via `.get` (None when absent), anything else yields None. -/
def getConversationId : PyVal → Option Scalar
  | .scalar (.str s) => some (.str s)
  | .obj kvs => alistGet "id" kvs
  | _ => none

/-- Persisted workflow row (`Workflow` model), entity id kept as the map
key: name, config (the JSON object passed, defaulted), creation time. -/
structure WorkflowRow where
  name : String
  config : List (String × Scalar)
  createdAt : Int
  deriving DecidableEq, Repr

/-- Persisted run row (`Run` model), run id kept as the map key. -/
structure RunRow where
  workflowId : String
  status : String
  startedAt : Int
  completedAt : Option Int
  currentStep : Option String
  entityId : String
  convKey : Scalar
  lastError : Option String
  deriving DecidableEq, Repr

/-- Persisted audit row (`AuditLog` model), id elided: the audit log is the
append-ordered list of rows. -/
structure AuditRow where
  runId : String
  type : String
  detail : List (String × Scalar)
  createdAt : Int
  deriving DecidableEq, Repr

/-- The persistent store plus the in-process CONV_RUNS index. -/
structure StoreState where
  workflows : List (String × WorkflowRow)
  runs : List (String × RunRow)
  audit : List AuditRow
  convRuns : List (Scalar × String)
  deriving DecidableEq, Repr

/-- `_audit`: append one audit row. -/
def auditAppend (st : StoreState) (runId type2 : String)
    (detail : List (String × Scalar)) (now : Int) : StoreState :=
  { st with audit := st.audit ++ [⟨runId, type2, detail, now⟩] }

/-- `_ensure_workflow_row`: insert-if-absent; `name or entity_id` and
`config or {}` follow Python truthiness. -/
def ensureWorkflowRow (st : StoreState) (entityId : String) (name : Option String)
    (config : Option (List (String × Scalar))) (now : Int) :
    WorkflowRow × StoreState :=
  match alistGet entityId st.workflows with
  | some w => (w, st)
  | none =>
    let w : WorkflowRow := ⟨pyOrStr name entityId, config.getD [], now⟩
    (w, { st with workflows := alistSet entityId w st.workflows })

/-- The creation path of `_ensure_run_row`: insert a fresh "running" row,
point the index at it, append a run_started audit entry. -/
def ensureRunRowCreate (st : StoreState) (entityId : String) (convKey : Scalar)
    (newRunId : String) (now : Int) : String × StoreState :=
  let row : RunRow := ⟨entityId, "running", now, none, none, entityId, convKey, none⟩
  let st1 := { st with runs := alistSet newRunId row st.runs,
                       convRuns := alistSet convKey newRunId st.convRuns }
  (newRunId, auditAppend st1 newRunId "run_started"
    [("entity_id", .str entityId), ("conv_key", convKey)] now)

/-- `_ensure_run_row`: reuse the indexed run id when its row still exists;
otherwise create. -/
def ensureRunRow (st : StoreState) (entityId : String) (convKey : Scalar)
    (newRunId : String) (now : Int) : String × StoreState :=
  match alistGet convKey st.convRuns with
  | some runId =>
    match alistGet runId st.runs with
    | some _ => (runId, st)
    | none => ensureRunRowCreate st entityId convKey newRunId now
  | none => ensureRunRowCreate st entityId convKey newRunId now

/-- Python truthiness of an optional string (`if current_step:`). -/
def optStrTruthy : Option String → Bool
  | some s => decide (s ≠ "")
  | none => false

/-- The updated run row written by `_update_run_status`. -/
def updatedRunRow (r : RunRow) (status : String) (currentStep error : Option String)
    (completed : Bool) (now : Int) : RunRow :=
  { r with
    status := status
    currentStep := if optStrTruthy currentStep then currentStep else r.currentStep
    lastError := if optStrTruthy error then error else r.lastError
    completedAt := if completed then some now else r.completedAt }

/-- The detail payload of a `status` audit entry. -/
def statusDetail (status : String) (currentStep error : Option String) :
    List (String × Scalar) :=
  [("status", .str status), ("current_step", .str (currentStep.getD "")),
   ("error", .str (error.getD ""))]

/-- `_update_run_status`: returns unchanged when the key is unindexed or
when the indexed row is gone from the store; otherwise updates the row and
appends a `status` audit entry. -/
def updateRunStatus (st : StoreState) (convKey : Scalar) (status : String)
    (currentStep : Option String) (error : Option String) (completed : Bool)
    (now : Int) : StoreState :=
  match alistGet convKey st.convRuns with
  | none => st
  | some runId =>
    match alistGet runId st.runs with
    | none => st
    | some r =>
      let st1 := { st with
        runs := alistSet runId (updatedRunRow r status currentStep error completed now)
          st.runs }
      auditAppend st1 runId "status" (statusDetail status currentStep error) now

/-! ### The request pipeline (`responses`, `gen`, `_sse_response`) -/

/-- Full pipeline state: the in-memory session registry (keyed by the
conversation key value), the next fresh workflow-instance id (object
identity of factory results), and the store. -/
structure BridgeState where
  sessions : List (Scalar × (Nat × Int))
  nextWf : Nat
  store : StoreState
  deriving DecidableEq, Repr

/-- `key = conversation_id or f"conv_{uuid4().hex[:8]}"` (Python
truthiness: None and "" fall back to the generated key). -/
def resolveConvKey (conversationId : Option Scalar) (freshKey : String) : Scalar :=
  match conversationId with
  | some c => if c.truthy then c else .str freshKey
  | none => .str freshKey

/-- The sequential behaviour of one `_get_or_create_workflow` call as made
by a request handler: resolve the key, then refresh the timestamp or
create a fresh workflow instance. MAX_WORKFLOWS enforcement is skipped,
matching the shipped `MAX_WORKFLOWS = None`. Returns
(workflow id, key, new state). -/
def getOrCreateWorkflow (st : BridgeState) (conversationId : Option Scalar)
    (freshKey : String) (now : Int) : Nat × Scalar × BridgeState :=
  let key := resolveConvKey conversationId freshKey
  match alistGet key st.sessions with
  | some entry =>
    (entry.1, key, { st with sessions := alistSet key (entry.1, now) st.sessions })
  | none =>
    (st.nextWf, key, { st with
      sessions := alistSet key (st.nextWf, now) st.sessions,
      nextWf := st.nextWf + 1 })

/-- The non-streaming prefix of the `responses` handler: resolve/create the
session, then ensure the workflow row and the run row. -/
def responsesStart (st : BridgeState) (model : String) (conversation : PyVal)
    (freshKey newRunId : String) (now : Int) : Nat × Scalar × BridgeState :=
  let g := getOrCreateWorkflow st (getConversationId conversation) freshKey now
  let s2 := (ensureWorkflowRow g.2.2.store model none none now).2
  let s3 := (ensureRunRow s2 model g.2.1 newRunId now).2
  (g.1, g.2.1, { g.2.2 with store := s3 })

/-- The queue contents produced by `gen`: the translated stream (which
already ends with the sentinel) followed by the extra sentinel that `gen`
enqueues after `_stream_events` returns. -/
def genQueue (evs : List WfEvent) : List OutItem :=
  streamEvents evs ++ [OutItem.done]

/-- The consumer loop of `gen`: yield queue items until the first sentinel
(inclusive), then break. -/
def consumeQueue : List OutItem → List OutItem
  | [] => []
  | x :: xs => if x = OutItem.done then [x] else x :: consumeQueue xs

/-- Model of `json.dumps` on a wire event: an object rendering. Only the
leading brace and the length matter for the framing theorems. -/
def encodeWire : WireEvent → String
  | .trace info => "\x7b\"type\": \"response.trace.complete\", \"id\": \""
      ++ info.requestId ++ "\"\x7d"
  | .delta text => "\x7b\"type\": \"response.output_text.delta\", \"delta\": \""
      ++ text ++ "\"\x7d"
  | .error msg => "\x7b\"type\": \"error\", \"message\": \"" ++ msg ++ "\"\x7d"

/-- `_sse_response`: frame one queue item as SSE bytes (modelled as a
string). -/
def sseFrame : OutItem → String
  | .done => "data: [DONE]\n\n"
  | .ev w => "data: " ++ encodeWire w ++ "\n\n"

/-- The whole `responses` handler on a finite event stream: start, mark the
run running, translate the stream, mark the run completed, enqueue the
extra sentinel, consume the queue, frame it. -/
def responsesHandler (st : BridgeState) (model : String) (conversation : PyVal)
    (freshKey newRunId : String) (evs : List WfEvent) (now : Int) :
    List String × BridgeState :=
  let r := responsesStart st model conversation freshKey newRunId now
  let s2 := updateRunStatus r.2.2.store r.2.1 "running" none none false now
  let s3 := updateRunStatus s2 r.2.1 "completed" none none true now
  ((consumeQueue (genQueue evs)).map sseFrame, { r.2.2 with store := s3 })

/-! ### Claim C1: the registry under concurrent getOrCreate and prune

A small-step model of the cooperative (asyncio) execution of
`_get_or_create_workflow` and `_prune_workflows`. Each action is one
atomic segment between suspension points of the Python code:

* start — a task calls `_get_or_create_workflow` with an explicit
  conversation id, reading `time.time()`; it fetches the per-key lock
  from the defaultdict (creating one when absent; no await happens in
  between). When the lock is free, `async with lock` acquires without
  yielding and the task runs the critical section to its first await:
  on a hit it refreshes the timestamp and returns, on a miss it calls
  `await create_workflow(...)` and suspends holding the lock. When the
  lock is held, the task suspends as a waiter on that lock object.
* finish — a suspended factory call returns: the session is stored under
  the timestamp captured at call entry, the lock is released, the task
  returns its session.
* wake — a waiter acquires the lock object it fetched at call entry once
  free, then runs the critical section as above.
* prune — `_prune_workflows(now)` runs atomically on the event loop:
  expired entries are deleted and their keys removed from the lock
  defaultdict (the lock objects themselves survive in any holder's hand).

`WORKFLOW_TTL = 3600` and `MAX_WORKFLOWS = None` as shipped, so there is
no capacity eviction. -/

/-- Python `del d[k]` over an assoc list (used under `if k in d:`). -/
def alistRemove {κ α : Type} [DecidableEq κ] (k : κ) (l : List (κ × α)) :
    List (κ × α) :=
  l.filter fun e => decide (¬ e.1 = k)

namespace Registry

/-- What one request task is doing. -/
inductive TaskSt where
  | waiting (k : String) (lockId : Nat) (t0 : Int)
  | creating (k : String) (lockId : Nat) (t0 : Int)
  | finished (sid : Nat)
  deriving DecidableEq, Repr

/-- Global state: the WORKFLOWS dict, the _WORKFLOW_LOCKS defaultdict, the
holder of each lock object, the tasks, fresh-id counters, and the log of
factory invocations (one key per `create_workflow` call). -/
structure St where
  workflows : List (String × (Nat × Int))
  locks : List (String × Nat)
  heldBy : List (Nat × Nat)
  tasks : List (Nat × TaskSt)
  nextLock : Nat
  nextSid : Nat
  factoryCalls : List String
  deriving DecidableEq, Repr

/-- The initial state: everything empty. -/
def initSt : St := ⟨[], [], [], [], 0, 0, []⟩

/-- Scheduler actions. -/
inductive Act where
  | start (t : Nat) (k : String) (time : Int)
  | finish (t : Nat)
  | wake (t : Nat)
  | prune (now : Int)
  deriving DecidableEq, Repr

/-- The critical section of `_get_or_create_workflow`, run by task `t`
holding lock `lockId` with entry timestamp `t0`: on a hit, refresh the
timestamp, release the lock and return the existing session; on a miss,
invoke the factory and suspend (still holding the lock). -/
def enterCritical (s : St) (t : Nat) (k : String) (lockId : Nat) (t0 : Int) : St :=
  match alistGet k s.workflows with
  | some entry =>
    { s with workflows := alistSet k (entry.1, t0) s.workflows,
             heldBy := alistRemove lockId s.heldBy,
             tasks := alistSet t (TaskSt.finished entry.1) s.tasks }
  | none =>
    { s with tasks := alistSet t (TaskSt.creating k lockId t0) s.tasks,
             factoryCalls := s.factoryCalls ++ [k] }

/-- One atomic scheduler step (a no-op when the action is not enabled). -/
def step (s : St) : Act → St
  | .start t k time =>
    if (alistGet t s.tasks).isSome then s
    else
      match alistGet k s.locks with
      | some lockId =>
        if (alistGet lockId s.heldBy).isSome then
          { s with tasks := alistSet t (TaskSt.waiting k lockId time) s.tasks }
        else
          enterCritical { s with heldBy := alistSet lockId t s.heldBy } t k lockId time
      | none =>
        let lockId := s.nextLock
        let s1 := { s with locks := alistSet k lockId s.locks,
                           nextLock := s.nextLock + 1 }
        enterCritical { s1 with heldBy := alistSet lockId t s1.heldBy } t k lockId time
  | .finish t =>
    match alistGet t s.tasks with
    | some (TaskSt.creating k lockId t0) =>
      { s with workflows := alistSet k (s.nextSid, t0) s.workflows,
               nextSid := s.nextSid + 1,
               heldBy := alistRemove lockId s.heldBy,
               tasks := alistSet t (TaskSt.finished s.nextSid) s.tasks }
    | _ => s
  | .wake t =>
    match alistGet t s.tasks with
    | some (TaskSt.waiting k lockId t0) =>
      if (alistGet lockId s.heldBy).isSome then s
      else enterCritical { s with heldBy := alistSet lockId t s.heldBy } t k lockId t0
    | _ => s
  | .prune now =>
    let expired := s.workflows.filter fun e => decide (now - e.2.2 > 3600)
    { s with
      workflows := s.workflows.filter fun e => decide (¬ (now - e.2.2 > 3600)),
      locks := (expired.map Prod.fst).foldl (fun l k2 => alistRemove k2 l) s.locks }

/-- Run a schedule from the empty state. -/
def run (acts : List Act) : St := acts.foldl step initSt

/-- The interleaving that voids the per-key lock: task 0 creates the
session for "k" while task 1 waits on the same lock object; after task 0
finishes, the prune sweep expires the entry and deletes the lock entry
from the defaultdict while task 1 still references the old lock object;
task 1 then wakes, finds no session and calls the factory again; task 2
starts, receives a brand-new lock from the defaultdict, acquires it at
once and calls the factory for "k" concurrently with task 1. -/
def racingTrace : List Act :=
  [.start 0 "k" 0, .start 1 "k" 0, .finish 0, .prune 4000,
   .wake 1, .start 2 "k" 4000, .finish 1, .finish 2]

end Registry

theorem streamEvents_eq (evs : List WfEvent) :
    streamEvents evs = (evs.filterMap toWireEvent).map OutItem.ev ++ [OutItem.done] := by
  induction evs with
  | nil => rfl
  | cons e es ih =>
    simp only [streamEvents, List.filterMap_cons]
    cases toWireEvent e <;> simp [ih]

theorem count_done_map_ev (ws : List WireEvent) :
    (ws.map OutItem.ev).count OutItem.done = 0 := by
  rw [List.count_eq_zero]
  simp

/-- Claim C2: the event-translation loop is total, maps each input event to
0 or 1 wire events in input order (so at most N wire events for N inputs),
and always ends with exactly one terminal sentinel, also on empty input. -/
theorem stream_translation_shape (evs : List WfEvent) :
    streamEvents evs = (evs.filterMap toWireEvent).map OutItem.ev ++ [OutItem.done]
      ∧ (evs.filterMap toWireEvent).length ≤ evs.length
      ∧ (streamEvents evs).count OutItem.done = 1
      ∧ (streamEvents evs).getLast? = some OutItem.done := by
  refine ⟨streamEvents_eq evs, List.length_filterMap_le _ _, ?_, ?_⟩
  · rw [streamEvents_eq, List.count_append, count_done_map_ev]
    rfl
  · rw [streamEvents_eq, List.getLast?_concat]

theorem pyStrip_eq_empty_iff (s : String) :
    pyStrip s = "" ↔ ∀ c ∈ s.data, c.isWhitespace := by
  unfold pyStrip
  constructor
  · intro h
    have hlist : ((s.data.dropWhile Char.isWhitespace).reverse.dropWhile
        Char.isWhitespace).reverse = [] := by
      have := congrArg String.data h
      simpa using this
    rw [List.reverse_eq_nil_iff, List.dropWhile_eq_nil_iff] at hlist
    have hdrop : s.data.dropWhile Char.isWhitespace = [] := by
      by_contra hne
      have hhead := List.head_dropWhile_not Char.isWhitespace s.data hne
      have hmem := List.head_mem hne
      have hws := hlist _ (List.mem_reverse.mpr hmem)
      rw [hhead] at hws
      cases hws
    exact List.dropWhile_eq_nil_iff.mp hdrop
  · intro h
    have hdrop : s.data.dropWhile Char.isWhitespace = [] :=
      List.dropWhile_eq_nil_iff.mpr h
    rw [hdrop]
    rfl

theorem collectLines_eq_filterMap (conversation : List Msg) :
    collectLines conversation = conversation.filterMap fun m =>
      if ∃ c ∈ m.text.data, ¬ c.isWhitespace then
        some (pyOrStr m.author m.role ++ ": " ++ m.text)
      else none := by
  induction conversation with
  | nil => rfl
  | cons m ms ih =>
    have hguard : (pyStrip m.text ≠ "") ↔ ∃ c ∈ m.text.data, ¬ c.isWhitespace := by
      rw [not_iff_comm, pyStrip_eq_empty_iff]
      constructor
      · intro h c hc
        by_contra hws
        exact h ⟨c, hc, hws⟩
      · intro h hex
        obtain ⟨c, hc, hws⟩ := hex
        exact hws (h c hc)
    rw [collectLines, List.filterMap_cons]
    by_cases h : pyStrip m.text ≠ ""
    · rw [if_pos h, if_pos (hguard.mp h), ih]
    · rw [if_neg h, if_neg (fun hx => h (hguard.mpr hx)), ih]

/-- Claim C6 counterexample: on a conversation holding one message with
author name `""` and text `" "`, the code emits the placeholder
`(no content)`, while the claim as stated demands the line `":  "`
(the text is non-empty and the author name is present). -/
theorem output_delta_claim_cex :
    outputDeltaText [⟨"user", some "", " "⟩]
      ≠ claimOutputDeltaText [⟨"user", some "", " "⟩] := by
  decide

/-- Claim C6 as amended: the delta is the newline-joined
`"<author-or-role>: <text>"` lines over the messages whose text contains a
non-whitespace character (author name used when present and non-empty,
otherwise the role), and the literal `(no content)` when there is no such
message. -/
theorem output_delta_amended (conversation : List Msg) :
    outputDeltaText conversation = amendedOutputDeltaText conversation := by
  unfold outputDeltaText amendedOutputDeltaText
  rw [collectLines_eq_filterMap]

theorem eq_of_key_eq {l : List RegEntry} (h : (l.map RegEntry.key).Nodup)
    {a b : RegEntry} (ha : a ∈ l) (hb : b ∈ l) (hk : a.key = b.key) : a = b := by
  induction l with
  | nil => cases ha
  | cons x xs ih =>
    rw [List.map_cons, List.nodup_cons] at h
    rcases List.mem_cons.mp ha with rfl | ha2
    · rcases List.mem_cons.mp hb with rfl | hb2
      · rfl
      · exact absurd (hk ▸ List.mem_map_of_mem RegEntry.key hb2) h.1
    · rcases List.mem_cons.mp hb with rfl | hb2
      · exact absurd (hk ▸ List.mem_map_of_mem RegEntry.key ha2) h.1
      · exact ih h.2 ha2 hb2

theorem enforceMax_subset (fresh : List RegEntry) (m : Nat) :
    ∀ e ∈ enforceMax fresh m, e ∈ fresh := by
  intro e he
  unfold enforceMax at he
  split at he
  · exact List.mem_of_mem_filter he
  · exact he

theorem prune_subset (ws : List RegEntry) (ttl : Int) (maxW : Option Nat) (now : Int) :
    ∀ e ∈ pruneWorkflows ws ttl maxW now, e ∈ freshList ws ttl now := by
  intro e he
  unfold pruneWorkflows at he
  cases maxW with
  | none => exact he
  | some m => exact enforceMax_subset _ m e he

theorem enforceMax_spec (fresh : List RegEntry) (m : Nat)
    (hnd : (fresh.map RegEntry.key).Nodup) (hover : m < fresh.length) :
    (enforceMax fresh m).length = m
    ∧ ∀ e ∈ fresh, e ∉ enforceMax fresh m →
        ∀ e2 ∈ enforceMax fresh m, e.ts ≤ e2.ts := by
  have hgt : fresh.length > m := hover
  set n := fresh.length - m with hn
  set sorted := fresh.insertionSort tsLE with hsorted_def
  set ek := (sorted.take n).map RegEntry.key with hek
  have hres : enforceMax fresh m = fresh.filter fun e => decide (¬ e.key ∈ ek) := by
    rw [enforceMax, if_pos hgt]
  have hperm : List.Perm sorted fresh := List.perm_insertionSort tsLE fresh
  have hpair : List.Pairwise tsLE sorted := List.sorted_insertionSort tsLE fresh
  have hnds : (sorted.map RegEntry.key).Nodup := ((hperm.map _).nodup_iff).mpr hnd
  have hsplit : sorted.take n ++ sorted.drop n = sorted := List.take_append_drop n sorted
  have hcross : ∀ x ∈ sorted.take n, ∀ y ∈ sorted.drop n, tsLE x y := by
    rw [← hsplit] at hpair
    exact fun x hx y hy => (List.pairwise_append.mp hpair).2.2 x hx y hy
  have hmem_take : ∀ e ∈ fresh, e.key ∈ ek → e ∈ sorted.take n := by
    intro e he hke
    obtain ⟨x, hx, hxk⟩ := List.mem_map.mp hke
    have hxs : x ∈ sorted := List.take_subset n sorted hx
    have hes : e ∈ sorted := hperm.mem_iff.mpr he
    rwa [eq_of_key_eq hnds hxs hes hxk] at hx
  have hdisj : List.Disjoint (sorted.take n) (sorted.drop n) := by
    have hns : sorted.Nodup := List.Nodup.of_map _ hnds
    rw [← hsplit] at hns
    exact (List.nodup_append.mp hns).2.2
  have hmem_drop : ∀ e ∈ fresh, ¬ e.key ∈ ek → e ∈ sorted.drop n := by
    intro e he hke
    have hes : e ∈ sorted := hperm.mem_iff.mpr he
    rw [← hsplit] at hes
    rcases List.mem_append.mp hes with h | h
    · exact absurd (List.mem_map_of_mem RegEntry.key h) hke
    · exact h
  constructor
  · have hpf : List.Perm (fresh.filter fun e => decide (¬ e.key ∈ ek))
        (sorted.filter fun e => decide (¬ e.key ∈ ek)) :=
      hperm.symm.filter _
    have htf : ((sorted.take n).filter fun e => decide (¬ e.key ∈ ek)) = [] := by
      rw [List.filter_eq_nil_iff]
      intro x hx
      simp only [decide_eq_true_eq, not_not]
      exact List.mem_map_of_mem RegEntry.key hx
    have hdf : ((sorted.drop n).filter fun e => decide (¬ e.key ∈ ek))
        = sorted.drop n := by
      rw [List.filter_eq_self]
      intro y hy
      simp only [decide_eq_true_eq]
      intro hyk
      obtain ⟨x, hx, hxk⟩ := List.mem_map.mp hyk
      have hxs : x ∈ sorted := List.take_subset n sorted hx
      have hys : y ∈ sorted := List.drop_subset n sorted hy
      rw [eq_of_key_eq hnds hxs hys hxk] at hx
      exact hdisj hx hy
    have hlen : (sorted.filter fun e => decide (¬ e.key ∈ ek)).length
        = (sorted.drop n).length := by
      rw [← hsplit, List.filter_append, List.take_append_drop, htf, hdf,
        List.nil_append]
    rw [hres, hpf.length_eq, hlen, List.length_drop, hperm.length_eq]
    omega
  · intro e he hne e2 he2
    rw [hres, List.mem_filter] at he2
    have he2d : e2 ∈ sorted.drop n := by
      refine hmem_drop e2 he2.1 ?_
      have := he2.2
      simpa using this
    have hek2 : e.key ∈ ek := by
      by_contra hkne
      exact hne (hres ▸ List.mem_filter.mpr ⟨he, by simpa using hkne⟩)
    exact hcross e (hmem_take e he hek2) e2 he2d

/-- Claim C3: `prune(now)` removes exactly the sessions whose age strictly
exceeds the TTL; if a maximum is configured and the survivor count still
exceeds it, it removes the globally oldest survivors by timestamp until
exactly the maximum remain; entries not selected for removal are unchanged
(they survive with the same workflow id and timestamp); and the TTL=5,
MAX=2 scenario {stale:@0, keep_a:@7, keep_b:@8, keep_c:@6} at now=10
leaves exactly {keep_a, keep_b}. -/
theorem prune_workflows_spec (ws : List RegEntry) (ttl : Int) (maxW : Option Nat)
    (now : Int) (hnd : (ws.map RegEntry.key).Nodup) :
    (∀ e ∈ pruneWorkflows ws ttl maxW now, e ∈ ws)
    ∧ (∀ e ∈ ws, now - e.ts > ttl → e ∉ pruneWorkflows ws ttl maxW now)
    ∧ ((maxW = none ∨ ∃ m, maxW = some m ∧ (freshList ws ttl now).length ≤ m) →
        ∀ e ∈ ws, now - e.ts ≤ ttl → e ∈ pruneWorkflows ws ttl maxW now)
    ∧ (∀ m, maxW = some m → m < (freshList ws ttl now).length →
        (pruneWorkflows ws ttl maxW now).length = m
        ∧ ∀ e ∈ ws, now - e.ts ≤ ttl → e ∉ pruneWorkflows ws ttl maxW now →
            ∀ e2 ∈ pruneWorkflows ws ttl maxW now, e.ts ≤ e2.ts)
    ∧ pruneWorkflows scenarioRegistry 5 (some 2) 10
        = [⟨"keep_a", 1, 7⟩, ⟨"keep_b", 2, 8⟩] := by
  have hfnd : ((freshList ws ttl now).map RegEntry.key).Nodup :=
    List.Nodup.sublist (List.Sublist.map _ (List.filter_sublist ws)) hnd
  have hmemf : ∀ e ∈ ws, now - e.ts ≤ ttl → e ∈ freshList ws ttl now := by
    intro e he hle
    exact List.mem_filter.mpr ⟨he, decide_eq_true hle⟩
  refine ⟨?_, ?_, ?_, ?_, by decide⟩
  · intro e he
    exact List.mem_of_mem_filter (prune_subset ws ttl maxW now e he)
  · intro e _ hgt hin
    have hf := prune_subset ws ttl maxW now e hin
    have := List.mem_filter.mp hf
    rw [decide_eq_true_eq] at this
    omega
  · rintro (hW | ⟨m, hW, hle⟩) e he hlt
    · rw [pruneWorkflows.eq_def, hW]
      exact hmemf e he hlt
    · rw [pruneWorkflows.eq_def, hW]
      show e ∈ enforceMax (freshList ws ttl now) m
      rw [enforceMax, if_neg (by omega)]
      exact hmemf e he hlt
  · intro m hW hover
    have hspec := enforceMax_spec (freshList ws ttl now) m hfnd hover
    have hpr : pruneWorkflows ws ttl maxW now = enforceMax (freshList ws ttl now) m := by
      rw [pruneWorkflows.eq_def, hW]
    refine ⟨by rw [hpr]; exact hspec.1, ?_⟩
    intro e he hle hne e2 he2
    rw [hpr] at hne he2
    exact hspec.2 e (hmemf e he hle) hne e2 he2

/-- Witness for claim C3: the scenario registry has distinct keys, and the
general theorem applies to it. -/
theorem prune_workflows_spec_witness :
    ((scenarioRegistry.map RegEntry.key).Nodup)
    ∧ pruneWorkflows scenarioRegistry 5 (some 2) 10
        = [⟨"keep_a", 1, 7⟩, ⟨"keep_b", 2, 8⟩] :=
  ⟨by decide, (prune_workflows_spec scenarioRegistry 5 (some 2) 10 (by decide)).2.2.2.2⟩

theorem alistGet_set_self {κ α : Type} [DecidableEq κ] (k : κ) (v : α)
    (l : List (κ × α)) : alistGet k (alistSet k v l) = some v := by
  induction l with
  | nil => simp [alistGet, alistSet]
  | cons e rest ih =>
    obtain ⟨k2, v2⟩ := e
    by_cases h : k = k2
    · simp [alistGet, alistSet, h]
    · simp [alistGet, alistSet, h, ih]

/-- Claim C7: `ensureWorkflowRecord` is idempotent per entity id: after one
call the record is stored; a second call with arbitrary other arguments
returns the same record and leaves the store exactly as it was; when the
id was absent, the first call inserts the record built from its own
arguments. -/
theorem ensure_workflow_row_idempotent (st : StoreState) (eid : String)
    (n1 n2 : Option String) (c1 c2 : Option (List (String × Scalar)))
    (t1 t2 : Int) :
    (ensureWorkflowRow (ensureWorkflowRow st eid n1 c1 t1).2 eid n2 c2 t2).1
      = (ensureWorkflowRow st eid n1 c1 t1).1
    ∧ (ensureWorkflowRow (ensureWorkflowRow st eid n1 c1 t1).2 eid n2 c2 t2).2
      = (ensureWorkflowRow st eid n1 c1 t1).2
    ∧ alistGet eid (ensureWorkflowRow st eid n1 c1 t1).2.workflows
      = some (ensureWorkflowRow st eid n1 c1 t1).1
    ∧ (alistGet eid st.workflows = none →
        (ensureWorkflowRow st eid n1 c1 t1).1 = ⟨pyOrStr n1 eid, c1.getD [], t1⟩) := by
  cases h : alistGet eid st.workflows with
  | some w => simp [ensureWorkflowRow, h]
  | none => simp [ensureWorkflowRow, h, alistGet_set_self]

/-- Witness for claim C7 on an empty store. -/
theorem ensure_workflow_row_idempotent_witness :
    alistGet "wf_test" (StoreState.mk [] [] [] []).workflows = none
    ∧ (ensureWorkflowRow ⟨[], [], [], []⟩ "wf_test" (some "demo")
        (some [("foo", .str "bar")]) 1).1 = ⟨"demo", [("foo", .str "bar")], 1⟩ :=
  ⟨rfl, (ensure_workflow_row_idempotent ⟨[], [], [], []⟩ "wf_test" (some "demo")
    none (some [("foo", .str "bar")]) none 1 2).2.2.2 rfl⟩

/-- Claim C8: `ensureRunRecord` returns the indexed run id and changes
nothing when the indexed row still exists; when the key is unindexed or
the indexed row is gone it returns the fresh id, re-points the index at
it, stores a "running" row, and appends exactly one run_started audit
entry. -/
theorem ensure_run_row_spec (st : StoreState) (eid : String) (k : Scalar)
    (newId : String) (now : Int) :
    (∀ rid r, alistGet k st.convRuns = some rid → alistGet rid st.runs = some r →
        ensureRunRow st eid k newId now = (rid, st))
    ∧ ((alistGet k st.convRuns = none
          ∨ ∃ rid, alistGet k st.convRuns = some rid ∧ alistGet rid st.runs = none) →
        (ensureRunRow st eid k newId now).1 = newId
        ∧ alistGet k (ensureRunRow st eid k newId now).2.convRuns = some newId
        ∧ alistGet newId (ensureRunRow st eid k newId now).2.runs
            = some ⟨eid, "running", now, none, none, eid, k, none⟩
        ∧ (ensureRunRow st eid k newId now).2.audit = st.audit
            ++ [⟨newId, "run_started",
                  [("entity_id", .str eid), ("conv_key", k)], now⟩]) := by
  constructor
  · intro rid r h1 h2
    simp [ensureRunRow, h1, h2]
  · rintro (h1 | ⟨rid, h1, h2⟩)
    · simp [ensureRunRow, h1, ensureRunRowCreate, auditAppend, alistGet_set_self]
    · simp [ensureRunRow, h1, h2, ensureRunRowCreate, auditAppend, alistGet_set_self]

/-- Witness for claim C8: reuse on a populated store, creation on an empty
store. -/
theorem ensure_run_row_spec_witness :
    ensureRunRow ⟨[], [("r0", ⟨"m", "running", 1, none, none, "m", .str "c1", none⟩)],
        [], [(.str "c1", "r0")]⟩ "m" (.str "c1") "r1" 5
      = ("r0", ⟨[], [("r0", ⟨"m", "running", 1, none, none, "m", .str "c1", none⟩)],
          [], [(.str "c1", "r0")]⟩)
    ∧ (ensureRunRow ⟨[], [], [], []⟩ "m" (.str "c1") "r1" 5).1 = "r1" :=
  ⟨(ensure_run_row_spec ⟨[], [("r0", ⟨"m", "running", 1, none, none, "m",
      .str "c1", none⟩)], [], [(.str "c1", "r0")]⟩ "m" (.str "c1") "r1" 5).1
      "r0" ⟨"m", "running", 1, none, none, "m", .str "c1", none⟩ (by decide) (by decide),
   ((ensure_run_row_spec ⟨[], [], [], []⟩ "m" (.str "c1") "r1" 5).2 (Or.inl rfl)).1⟩

/-- Claim C5 counterexample: conversation key "k" is indexed to run id
"r1" but the store holds no row "r1"; `updateRunStatus` then changes
nothing at all — in particular no `status` audit entry is appended, though
the claim demands one whenever the key has an indexed run id. -/
theorem update_run_status_claim_cex :
    alistGet (Scalar.str "k") (StoreState.mk [] [] [] [(.str "k", "r1")]).convRuns
      = some "r1"
    ∧ updateRunStatus ⟨[], [], [], [(.str "k", "r1")]⟩ (.str "k") "completed"
        none none true 9 = ⟨[], [], [], [(.str "k", "r1")]⟩ := by
  constructor <;> decide

/-- Claim C5 as amended: `updateRunStatus` is a complete no-op when the key
has no indexed run id, and also when the indexed run record is no longer
found in the store; when the indexed record exists it updates the status
fields (setting the completion time when `completed` is set) and appends
exactly one `status` audit entry. -/
theorem update_run_status_amended (st : StoreState) (k : Scalar) (status : String)
    (cs err : Option String) (completed : Bool) (now : Int) :
    (alistGet k st.convRuns = none →
        updateRunStatus st k status cs err completed now = st)
    ∧ (∀ rid, alistGet k st.convRuns = some rid → alistGet rid st.runs = none →
        updateRunStatus st k status cs err completed now = st)
    ∧ (∀ rid r, alistGet k st.convRuns = some rid → alistGet rid st.runs = some r →
        (updateRunStatus st k status cs err completed now).audit
          = st.audit ++ [⟨rid, "status", statusDetail status cs err, now⟩]
        ∧ alistGet rid (updateRunStatus st k status cs err completed now).runs
          = some (updatedRunRow r status cs err completed now)
        ∧ (updateRunStatus st k status cs err completed now).convRuns = st.convRuns
        ∧ (updateRunStatus st k status cs err completed now).workflows
          = st.workflows) := by
  refine ⟨?_, ?_, ?_⟩
  · intro h
    simp [updateRunStatus, h]
  · intro rid h1 h2
    simp [updateRunStatus, h1, h2]
  · intro rid r h1 h2
    simp [updateRunStatus, h1, h2, auditAppend, alistGet_set_self]

/-- Witness for claim C5 as amended: no-op on an unindexed key, and the
audit entry appended on a populated store. -/
theorem update_run_status_amended_witness :
    updateRunStatus ⟨[], [], [], []⟩ (.str "k") "running" none none false 3
      = ⟨[], [], [], []⟩
    ∧ (updateRunStatus ⟨[], [("r1", ⟨"m", "running", 1, none, none, "m",
          .str "k", none⟩)], [], [(.str "k", "r1")]⟩ (.str "k") "completed"
        none none true 9).audit
      = [⟨"r1", "status", statusDetail "completed" none none, 9⟩] := by
  constructor
  · exact (update_run_status_amended ⟨[], [], [], []⟩ (.str "k") "running"
      none none false 3).1 rfl
  · have h := (update_run_status_amended ⟨[], [("r1", ⟨"m", "running", 1, none,
      none, "m", .str "k", none⟩)], [], [(.str "k", "r1")]⟩ (.str "k") "completed"
      none none true 9).2.2 "r1" ⟨"m", "running", 1, none, none, "m", .str "k", none⟩
      (by decide) (by decide)
    simpa using h.1

theorem ensureWorkflowRow_lookup (st : StoreState) (eid : String)
    (n : Option String) (c : Option (List (String × Scalar))) (t : Int) :
    alistGet eid (ensureWorkflowRow st eid n c t).2.workflows
      = some (ensureWorkflowRow st eid n c t).1 := by
  cases h : alistGet eid st.workflows with
  | some w => simp [ensureWorkflowRow, h]
  | none => simp [ensureWorkflowRow, h, alistGet_set_self]

theorem ensureRunRow_index_isSome (st : StoreState) (eid : String) (k : Scalar)
    (newId : String) (now : Int) :
    (alistGet k (ensureRunRow st eid k newId now).2.convRuns).isSome = true := by
  unfold ensureRunRow
  cases h1 : alistGet k st.convRuns with
  | some rid =>
    cases h2 : alistGet rid st.runs with
    | some r => simp [h1, h2]
    | none => simp [h2, ensureRunRowCreate, auditAppend, alistGet_set_self]
  | none => simp [ensureRunRowCreate, auditAppend, alistGet_set_self]

theorem ensureRunRow_workflows_eq (st : StoreState) (eid : String) (k : Scalar)
    (newId : String) (now : Int) :
    (ensureRunRow st eid k newId now).2.workflows = st.workflows := by
  unfold ensureRunRow
  cases h1 : alistGet k st.convRuns with
  | some rid =>
    cases h2 : alistGet rid st.runs with
    | some r => simp [h2]
    | none => simp [h2, ensureRunRowCreate, auditAppend]
  | none => simp [ensureRunRowCreate, auditAppend]

theorem getOrCreateWorkflow_key (st : BridgeState) (cid : Option Scalar)
    (freshKey : String) (now : Int) :
    (getOrCreateWorkflow st cid freshKey now).2.1 = resolveConvKey cid freshKey := by
  unfold getOrCreateWorkflow
  cases h : alistGet (resolveConvKey cid freshKey) st.sessions <;> simp [h]

theorem getOrCreateWorkflow_session_isSome (st : BridgeState) (cid : Option Scalar)
    (freshKey : String) (now : Int) :
    (alistGet (resolveConvKey cid freshKey)
      (getOrCreateWorkflow st cid freshKey now).2.2.sessions).isSome = true := by
  unfold getOrCreateWorkflow
  cases h : alistGet (resolveConvKey cid freshKey) st.sessions <;>
    simp [h, alistGet_set_self]

theorem consumeQueue_ev_append (ws : List WireEvent) (rest : List OutItem) :
    consumeQueue (ws.map OutItem.ev ++ OutItem.done :: rest)
      = ws.map OutItem.ev ++ [OutItem.done] := by
  induction ws with
  | nil => simp [consumeQueue]
  | cons w ws ih => simp [consumeQueue, ih]

theorem encodeWire_length (w : WireEvent) : 15 ≤ (encodeWire w).length := by
  cases w with
  | trace info =>
    simp only [encodeWire, String.length_append]
    have h : 15 ≤ ("\x7b\"type\": \"response.trace.complete\", \"id\": \"" :
        String).length := by decide
    omega
  | delta text =>
    simp only [encodeWire, String.length_append]
    have h : 15 ≤ ("\x7b\"type\": \"response.output_text.delta\", \"delta\": \"" :
        String).length := by decide
    omega
  | error msg =>
    simp only [encodeWire, String.length_append]
    have h : 15 ≤ ("\x7b\"type\": \"error\", \"message\": \"" : String).length := by
      decide
    omega

theorem sseFrame_ev_ne_done (w : WireEvent) :
    sseFrame (OutItem.ev w) ≠ "data: [DONE]\n\n" := by
  intro h
  have hlen := congrArg String.length h
  simp only [sseFrame, String.length_append] at hlen
  have h1 := encodeWire_length w
  have h2 : ("data: [DONE]\n\n" : String).length = 14 := by decide
  have h3 : ("data: " : String).length = 6 := by decide
  have h4 : ("\n\n" : String).length = 2 := by decide
  omega

theorem count_done_frame_map_ev (ws : List WireEvent) :
    ((ws.map OutItem.ev).map sseFrame).count "data: [DONE]\n\n" = 0 := by
  rw [List.count_eq_zero, List.map_map, List.mem_map]
  rintro ⟨w, _, hw⟩
  exact sseFrame_ev_ne_done w hw

/-- Claim C10: `gen` enqueues a second terminal sentinel after the
translation loop already sent one, yet the consumer loop stops at the
first sentinel, so the framed SSE output contains the frame
`data: [DONE]\n\n` exactly once and as its final frame. -/
theorem sse_done_frame_once (evs : List WfEvent) :
    (genQueue evs).count OutItem.done = 2
    ∧ ((consumeQueue (genQueue evs)).map sseFrame).count "data: [DONE]\n\n" = 1
    ∧ ((consumeQueue (genQueue evs)).map sseFrame).getLast?
        = some "data: [DONE]\n\n" := by
  have hq : genQueue evs
      = (evs.filterMap toWireEvent).map OutItem.ev
        ++ OutItem.done :: [OutItem.done] := by
    rw [genQueue, streamEvents_eq]
    simp
  have hc : consumeQueue (genQueue evs)
      = (evs.filterMap toWireEvent).map OutItem.ev ++ [OutItem.done] := by
    rw [hq, consumeQueue_ev_append]
  refine ⟨?_, ?_, ?_⟩
  · rw [hq, List.count_append, count_done_map_ev]
    rfl
  · rw [hc, List.map_append, List.count_append, count_done_frame_map_ev]
    rfl
  · rw [hc, List.map_append,
      show List.map sseFrame [OutItem.done] = ["data: [DONE]\n\n"] from rfl,
      List.getLast?_concat]

/-- Claim C9 counterexample: the request conversation value 42 (neither a
string nor an object) is not rejected: the handler prefix runs normally,
creating a session under a freshly generated key and writing the workflow
row and the run row. -/
theorem malformed_conversation_cex :
    getConversationId (.scalar (.num 42)) = none
    ∧ (responsesStart ⟨[], 0, ⟨[], [], [], []⟩⟩ "m" (.scalar (.num 42))
        "conv_ab12cd34" "r1" 7).2.2.sessions = [(.str "conv_ab12cd34", (0, 7))]
    ∧ (alistGet "m" (responsesStart ⟨[], 0, ⟨[], [], [], []⟩⟩ "m"
        (.scalar (.num 42)) "conv_ab12cd34" "r1" 7).2.2.store.workflows).isSome
      = true
    ∧ (alistGet "r1" (responsesStart ⟨[], 0, ⟨[], [], [], []⟩⟩ "m"
        (.scalar (.num 42)) "conv_ab12cd34" "r1" 7).2.2.store.runs).isSome
      = true := by
  decide

/-- Claim C9 as amended: a malformed conversation identifier — one that
`_get_conversation_id` maps to None, i.e. neither a string nor an object
bearing an id — is not rejected: the request proceeds under a freshly
generated conversation key; afterwards a session exists for that key, the
workflow row exists, and the run index holds the key. -/
theorem malformed_conversation_amended (st : BridgeState) (model : String)
    (v : PyVal) (freshKey newRunId : String) (now : Int)
    (hmal : getConversationId v = none) :
    (responsesStart st model v freshKey newRunId now).2.1 = .str freshKey
    ∧ (alistGet (.str freshKey)
        (responsesStart st model v freshKey newRunId now).2.2.sessions).isSome
      = true
    ∧ (alistGet model
        (responsesStart st model v freshKey newRunId now).2.2.store.workflows).isSome
      = true
    ∧ (alistGet (.str freshKey)
        (responsesStart st model v freshKey newRunId now).2.2.store.convRuns).isSome
      = true := by
  have hkey : (getOrCreateWorkflow st (getConversationId v) freshKey now).2.1
      = Scalar.str freshKey := by
    rw [getOrCreateWorkflow_key, hmal]
    rfl
  have hrk : resolveConvKey (getConversationId v) freshKey = .str freshKey := by
    rw [hmal]
    rfl
  have hsess := getOrCreateWorkflow_session_isSome st (getConversationId v)
    freshKey now
  rw [hrk] at hsess
  refine ⟨hkey, hsess, ?_, ?_⟩
  · show (alistGet model ((ensureRunRow
        ((ensureWorkflowRow (getOrCreateWorkflow st (getConversationId v)
          freshKey now).2.2.store model none none now).2) model
        (getOrCreateWorkflow st (getConversationId v) freshKey now).2.1
        newRunId now).2).workflows).isSome = true
    rw [ensureRunRow_workflows_eq, ensureWorkflowRow_lookup]
    rfl
  · show (alistGet (Scalar.str freshKey) ((ensureRunRow
        ((ensureWorkflowRow (getOrCreateWorkflow st (getConversationId v)
          freshKey now).2.2.store model none none now).2) model
        (getOrCreateWorkflow st (getConversationId v) freshKey now).2.1
        newRunId now).2).convRuns).isSome = true
    rw [← hkey]
    exact ensureRunRow_index_isSome _ model _ newRunId now

/-- Witness for claim C9 as amended, at the conversation value 42. -/
theorem malformed_conversation_amended_witness :
    getConversationId (.scalar (.num 42)) = none
    ∧ (responsesStart ⟨[], 0, ⟨[], [], [], []⟩⟩ "m" (.scalar (.num 42))
        "conv_ab12cd34" "r1" 7).2.1 = .str "conv_ab12cd34" :=
  ⟨rfl, (malformed_conversation_amended ⟨[], 0, ⟨[], [], [], []⟩⟩ "m"
    (.scalar (.num 42)) "conv_ab12cd34" "r1" 7 rfl).1⟩

/-- Claim C4, evidence of the code bug: on a stream consisting of one
failure event, the handler emits the error wire frame and still ends with
the single [DONE] frame, but it persists the run with status "completed"
and no lastError — the stored status never reflects the failure. -/
theorem failure_run_status_bug :
    (responsesHandler ⟨[], 0, ⟨[], [], [], []⟩⟩ "m" (.scalar (.str "c1"))
        "conv_f" "r1" [.failed "boom"] 7).1
      = [sseFrame (.ev (.error "boom")), "data: [DONE]\n\n"]
    ∧ ((alistGet "r1" (responsesHandler ⟨[], 0, ⟨[], [], [], []⟩⟩ "m"
        (.scalar (.str "c1")) "conv_f" "r1" [.failed "boom"] 7).2.store.runs).map
        RunRow.status) = some "completed"
    ∧ ((alistGet "r1" (responsesHandler ⟨[], 0, ⟨[], [], [], []⟩⟩ "m"
        (.scalar (.str "c1")) "conv_f" "r1" [.failed "boom"] 7).2.store.runs).bind
        RunRow.lastError) = none := by
  decide

/-- Claim C1, evidence of the code bug: along `racingTrace` — concurrent
`getOrCreate` calls sharing key "k", interleaved with prune — the
Workflow Factory is invoked three times for "k"; after the sixth step
tasks 1 and 2 are BOTH inside the factory for "k" at the same time (they
hold two different lock objects for the same key), and they finish with
different session objects (ids 1 and 2), so concurrent callers do not
observe one identical session. -/
theorem concurrent_create_race :
    (Registry.run Registry.racingTrace).factoryCalls = ["k", "k", "k"]
    ∧ alistGet 1 (Registry.run Registry.racingTrace).tasks
        = some (Registry.TaskSt.finished 1)
    ∧ alistGet 2 (Registry.run Registry.racingTrace).tasks
        = some (Registry.TaskSt.finished 2)
    ∧ alistGet 1 (Registry.run (Registry.racingTrace.take 6)).tasks
        = some (Registry.TaskSt.creating "k" 0 0)
    ∧ alistGet 2 (Registry.run (Registry.racingTrace.take 6)).tasks
        = some (Registry.TaskSt.creating "k" 1 4000) := by
  decide

end Bridge
